import Mathlib

/-!
Verification of the native-module hosting context of
`src/LCM/dsc/engine/ca/CAInfrastructure/NativeResourceHostMiContext.h`
(PowerShell-DSC-for-Linux).

The repository fragment under `src/` is the interface declaration only: the
`NativeResourceProvider` struct (its `_private` state: module/class loaded
flags, the cloned `outputResource` slot, the `result` field whose comment
fixes its default to `MI_RESULT_OK`), and the signatures of
`NativeResourceProvider_New/Delete/GetTargetResource/TestTargetResource/GetInventory`.
The function bodies are not under `src/`; where a behaviour is not decided by
the header, the definitions below are modelled from the specification
(marked `Modelled from the spec:`), faithful to its words.  Where the header
itself speaks (field defaults, which fields exist, the clone-on-post
comment), the header is authoritative.

Instances are modelled as records of property name/value pairs living in an
explicit heap (address -> data), so that deep copy (clone to a fresh
address) is distinguishable from aliasing, and provider-side mutation of an
instance after posting it is expressible.
-/

/-- MI status codes, modelled as natural numbers. `MI_RESULT_OK = 0` is the
success code; every nonzero value is a failure code. -/
def MI_RESULT_OK : Nat := 0

/-- Generic failure code (`MI_RESULT_FAILED = 1` in `MI.h`). -/
def MI_RESULT_FAILED : Nat := 1

/-- Property list of an MI instance: ordered name/value pairs. -/
abbrev InstanceData := List (String × String)

/-- Heap addresses for MI instances. -/
abbrev Addr := Nat

/-- Explicit heap of MI instances: an association list of cells, newest
first, together with the next fresh address.  Lookup takes the newest cell
for an address, so an update is modelled by shadowing. -/
structure Heap where
  cells : List (Addr × InstanceData)
  next : Addr
  deriving DecidableEq

namespace Heap

/-- Read the instance stored at an address, `none` if unallocated. -/
def get (h : Heap) (a : Addr) : Option InstanceData :=
  (h.cells.find? (fun c => c.fst == a)).map Prod.snd

/-- Allocate a fresh cell holding `d`; returns the fresh address. -/
def alloc (h : Heap) (d : InstanceData) : Addr × Heap :=
  (h.next, ⟨(h.next, d) :: h.cells, h.next + 1⟩)

/-- Overwrite the instance at address `a` (shadowing update). -/
def set (h : Heap) (a : Addr) (d : InstanceData) : Heap :=
  ⟨(a, d) :: h.cells, h.next⟩

/-- Well-formedness: every allocated cell lies below the fresh-address
watermark. -/
def WF (h : Heap) : Prop :=
  ∀ p ∈ h.cells, p.fst < h.next

end Heap

/-- Observable events of the hosting context: invocations of the provider
ABI entry points, and reported protocol violations. -/
inductive Event where
  | loadModuleEv
  | loadClassEv
  | unloadClassEv
  | unloadModuleEv
  | invokeGetTargetEv
  | invokeTestEv
  | invokeInventoryEv
  | protocolViolationEv
  deriving DecidableEq

open Event

/-- Callback-surface actions a provider may perform against the hosting
context during one entry-point call.  `postInstanceAct` passes the address
of the provider-owned instance to post; `postStatusAct` posts a status
code; `postErrorAct` posts an extended-error record (by value, the error
channel); `mutateAct` is the provider mutating one of its own instances. -/
inductive CallbackAction where
  | postInstanceAct (token : Nat) (a : Addr)
  | postStatusAct (token : Nat) (status : Nat)
  | postErrorAct (token : Nat) (err : InstanceData)
  | mutateAct (a : Addr) (d : InstanceData)
  deriving DecidableEq

open CallbackAction

/-- The `_private` state of `NativeResourceProvider`
(NativeResourceHostMiContext.h, lines 33-66), extended with the invocation
token of the Result Capture Slot.  `resourceProviderMiModuleLoaded` and
`resourceProviderClassLoaded` are the two BOOL flags of the header;
`outputResources` is the clone slot of the header's `outputResource`
(a list, since enumerate-instances relaxes the single-post rule);
`result` is the header's `result` field, whose comment fixes its value to
`MI_RESULT_OK` while the provider has not posted; `statusPosted` records
whether a `PostResult` was accepted.  The invocation bookkeeping
(`invocationActive`, `currentToken`, `nextToken`, `multiPostAllowed`) is
modelled from the spec: the Result Capture Slot carries the identity of the
invocation it belongs to. -/
structure ProviderState where
  resourceProviderMiModuleLoaded : Bool
  resourceProviderClassLoaded : Bool
  outputResources : List Addr
  statusPosted : Bool
  result : Nat
  extendedError : Option InstanceData
  invocationActive : Bool
  currentToken : Nat
  nextToken : Nat
  multiPostAllowed : Bool
  deriving DecidableEq

/-- Freshly constructed hosting-context state (`NativeResourceProvider_New`):
flags clear, slot empty, `result` at its header-documented default
`MI_RESULT_OK`, no invocation outstanding. -/
def initialProviderState : ProviderState :=
  { resourceProviderMiModuleLoaded := false
    resourceProviderClassLoaded := false
    outputResources := []
    statusPosted := false
    result := MI_RESULT_OK
    extendedError := none
    invocationActive := false
    currentToken := 0
    nextToken := 0
    multiPostAllowed := false }

/-- A provider module as seen across the ABI: results of the lifecycle
entry points and, for each resource entry point, the callback actions it
performs (as a function of the invocation token and the input instance
address) together with the status it returns. -/
structure ProviderModule where
  loadResult : Nat
  unloadResult : Nat
  classLoadResult : Nat
  classUnloadResult : Nat
  getTargetBehavior : Nat → Addr → List CallbackAction × Nat
  testBehavior : Nat → Addr → List CallbackAction × Nat
  inventoryBehavior : Nat → Addr → List CallbackAction × Nat

/-- Result of one internal lifecycle step: a status code, the successor
state and the trace of observable events. -/
structure StepResult where
  res : Nat
  state : ProviderState
  trace : List Event
  deriving DecidableEq

/-- Modelled from the spec: `ensureModuleLoaded()` (the module-load half of
the missing NativeResourceHostMiContext.c).  Idempotent: if
`resourceProviderMiModuleLoaded` is set, no-op success; otherwise invoke
the module's `Load` entry point once, set the flag on success, leave it
clear and surface the provider's failure code unchanged on failure. -/
def ensureModuleLoaded (pm : ProviderModule) (st : ProviderState) : StepResult :=
  if st.resourceProviderMiModuleLoaded then
    { res := MI_RESULT_OK, state := st, trace := [] }
  else if pm.loadResult = MI_RESULT_OK then
    { res := MI_RESULT_OK
      state := { st with resourceProviderMiModuleLoaded := true }
      trace := [loadModuleEv] }
  else
    { res := pm.loadResult, state := st, trace := [loadModuleEv] }

/-- Modelled from the spec: `ensureClassLoaded(className)` (the class-load
half of the missing NativeResourceHostMiContext.c); same pattern as
`ensureModuleLoaded`, gated behind it by the operation skeleton. -/
def ensureClassLoaded (pm : ProviderModule) (st : ProviderState) : StepResult :=
  if st.resourceProviderClassLoaded then
    { res := MI_RESULT_OK, state := st, trace := [] }
  else if pm.classLoadResult = MI_RESULT_OK then
    { res := MI_RESULT_OK
      state := { st with resourceProviderClassLoaded := true }
      trace := [loadClassEv] }
  else
    { res := pm.classLoadResult, state := st, trace := [loadClassEv] }

/-- Modelled from the spec: `beginInvocation()` of the Result Capture Slot
(missing from NativeResourceHostMiContext.c).  Fails fast, leaving the
state unchanged, if an invocation token is already outstanding; otherwise
issues a fresh token and resets the captured instance, status (to the
header-documented default `MI_RESULT_OK`) and extended error. -/
def beginInvocation (multi : Bool) (st : ProviderState) : StepResult :=
  if st.invocationActive then
    { res := MI_RESULT_FAILED, state := st, trace := [] }
  else
    { res := MI_RESULT_OK
      state := { st with
        invocationActive := true
        currentToken := st.nextToken
        nextToken := st.nextToken + 1
        outputResources := []
        statusPosted := false
        result := MI_RESULT_OK
        extendedError := none
        multiPostAllowed := multi }
      trace := [] }

/-- Outcome of running provider callbacks: successor state, heap and
event trace. -/
structure CbOut where
  st : ProviderState
  heap : Heap
  trace : List Event
  deriving DecidableEq

/-- Modelled from the spec: `PostInstance` (missing from
NativeResourceHostMiContext.c; the header documents that `outputResource`
holds a clone of the posted instance).  Accepted only when the token
matches the current invocation and either the slot is empty or this
operation allows multiple posts; the instance is deep-copied (cloned to a
fresh heap cell) before storage.  A stale token, a duplicate post or a
dangling instance is a protocol violation: reported, slot unchanged. -/
def postInstance (st : ProviderState) (h : Heap) (token : Nat) (a : Addr) : CbOut :=
  if st.invocationActive ∧ token = st.currentToken ∧
      (st.multiPostAllowed ∨ st.outputResources = []) then
    match h.get a with
    | some d =>
      let alloc := h.alloc d
      { st := { st with outputResources := st.outputResources ++ [alloc.1] }
        heap := alloc.2
        trace := [] }
    | none => { st := st, heap := h, trace := [protocolViolationEv] }
  else
    { st := st, heap := h, trace := [protocolViolationEv] }

/-- Modelled from the spec: `PostResult` (missing from
NativeResourceHostMiContext.c).  Accepted only when the token matches;
overwrites any previously posted status (last write wins).  A stale token
is a protocol violation: reported, state unchanged. -/
def postStatus (st : ProviderState) (h : Heap) (token : Nat) (s : Nat) : CbOut :=
  if st.invocationActive ∧ token = st.currentToken then
    { st := { st with result := s, statusPosted := true }, heap := h, trace := [] }
  else
    { st := st, heap := h, trace := [protocolViolationEv] }

/-- Modelled from the spec: the extended-error channel (missing from
NativeResourceHostMiContext.c).  Accepted only when the token matches;
records the error instance by value (cloned). -/
def postError (st : ProviderState) (h : Heap) (token : Nat) (e : InstanceData) : CbOut :=
  if st.invocationActive ∧ token = st.currentToken then
    { st := { st with extendedError := some e }, heap := h, trace := [] }
  else
    { st := st, heap := h, trace := [protocolViolationEv] }

/-- The provider mutating one of its own instances (an action outside the
hosting context: a plain heap write). -/
def mutateInstance (st : ProviderState) (h : Heap) (a : Addr) (d : InstanceData) : CbOut :=
  match h.get a with
  | some _ => { st := st, heap := h.set a d, trace := [] }
  | none => { st := st, heap := h, trace := [] }

/-- Dispatch of one callback action. -/
def applyCallback (st : ProviderState) (h : Heap) : CallbackAction → CbOut
  | postInstanceAct token a => postInstance st h token a
  | postStatusAct token s => postStatus st h token s
  | postErrorAct token e => postError st h token e
  | mutateAct a d => mutateInstance st h a d

/-- Run the provider's callback actions in order. -/
def runCallbacks (st : ProviderState) (h : Heap) : List CallbackAction → CbOut
  | [] => { st := st, heap := h, trace := [] }
  | act :: rest =>
    let o := applyCallback st h act
    let o2 := runCallbacks o.st o.heap rest
    { st := o2.st, heap := o2.heap, trace := o.trace ++ o2.trace }

/-- Outcome of draining the Result Capture Slot. -/
structure EndOut where
  instances : List Addr
  status : Nat
  extendedError : Option InstanceData
  state : ProviderState
  deriving DecidableEq

/-- Modelled from the spec: `endInvocation(token)` (missing from
NativeResourceHostMiContext.c).  Transfers ownership of the captured
instances and the captured status (still `MI_RESULT_OK`, its
header-documented default, when the provider never posted) to the caller,
clears the slot and invalidates the token. -/
def endInvocation (st : ProviderState) (token : Nat) : EndOut :=
  if st.invocationActive ∧ token = st.currentToken then
    { instances := st.outputResources
      status := st.result
      extendedError := st.extendedError
      state := { st with
        invocationActive := false
        outputResources := []
        statusPosted := false
        result := MI_RESULT_OK
        extendedError := none } }
  else
    { instances := [], status := MI_RESULT_FAILED, extendedError := none, state := st }

/-- Outcome of one public synchronous operation: the operation result, the
captured instances (the single output resource, or the ordered inventory),
the extended error, the successor state, heap and event trace. -/
structure OpOut where
  status : Nat
  instances : List Addr
  extendedError : Option InstanceData
  state : ProviderState
  heap : Heap
  trace : List Event
  deriving DecidableEq

/-- Modelled from the spec: the shared skeleton of the three synchronous
operations (the bodies of `NativeResourceProvider_GetTargetResource`,
`_TestTargetResource` and `_GetInventory` are missing from
NativeResourceHostMiContext.c).  Ensure the module and class are loaded
(propagating a failure immediately), begin an invocation, invoke the
provider entry point with the context as callback surface, end the
invocation, and let a failure returned by the entry point itself take
precedence over any posted status. -/
def runOperation (pm : ProviderModule)
    (behavior : Nat → Addr → List CallbackAction × Nat) (invokeEv : Event)
    (multi : Bool) (st : ProviderState) (h : Heap) (input : Addr) : OpOut :=
  let s1 := ensureModuleLoaded pm st
  if s1.res ≠ MI_RESULT_OK then
    { status := s1.res, instances := [], extendedError := none
      state := s1.state, heap := h, trace := s1.trace }
  else
    let s2 := ensureClassLoaded pm s1.state
    if s2.res ≠ MI_RESULT_OK then
      { status := s2.res, instances := [], extendedError := none
        state := s2.state, heap := h, trace := s1.trace ++ s2.trace }
    else
      let s3 := beginInvocation multi s2.state
      if s3.res ≠ MI_RESULT_OK then
        { status := s3.res, instances := [], extendedError := none
          state := s3.state, heap := h, trace := s1.trace ++ s2.trace ++ s3.trace }
      else
        let tok := s3.state.currentToken
        let b := behavior tok input
        let o := runCallbacks s3.state h b.1
        let e := endInvocation o.st tok
        { status := if b.2 ≠ MI_RESULT_OK then b.2 else e.status
          instances := e.instances
          extendedError := e.extendedError
          state := e.state
          heap := o.heap
          trace := s1.trace ++ s2.trace ++ s3.trace ++ ([invokeEv] ++ o.trace) }

/-- `NativeResourceProvider_GetTargetResource`: fetch-target-state, a
single-post operation driving the provider's `GetTargetResource`. -/
def NativeResourceProvider_GetTargetResource (pm : ProviderModule)
    (st : ProviderState) (h : Heap) (input : Addr) : OpOut :=
  runOperation pm pm.getTargetBehavior invokeGetTargetEv false st h input

/-- `NativeResourceProvider_TestTargetResource`: validate-current-state, a
single-post operation driving the provider's `TestTargetResource`. -/
def NativeResourceProvider_TestTargetResource (pm : ProviderModule)
    (st : ProviderState) (h : Heap) (input : Addr) : OpOut :=
  runOperation pm pm.testBehavior invokeTestEv false st h input

/-- `NativeResourceProvider_GetInventory`: enumerate-instances, the one
operation that relaxes the single-post rule (`multi := true`) and returns
the posted instances as an ordered sequence. -/
def NativeResourceProvider_GetInventory (pm : ProviderModule)
    (st : ProviderState) (h : Heap) (input : Addr) : OpOut :=
  runOperation pm pm.inventoryBehavior invokeInventoryEv true st h input

/-- Modelled from the spec: `NativeResourceProvider_Delete` / `teardown()`
(body missing from NativeResourceHostMiContext.c).  Unloads the class, then
the module, each only if its loaded flag is set, both attempts made even if
the first fails; returns the first error encountered, or success. -/
def NativeResourceProvider_Delete (pm : ProviderModule) (st : ProviderState) : StepResult :=
  let classRes := if st.resourceProviderClassLoaded then pm.classUnloadResult else MI_RESULT_OK
  let classTrace : List Event := if st.resourceProviderClassLoaded then [unloadClassEv] else []
  let st1 := { st with resourceProviderClassLoaded := false }
  let moduleRes := if st1.resourceProviderMiModuleLoaded then pm.unloadResult else MI_RESULT_OK
  let moduleTrace : List Event := if st1.resourceProviderMiModuleLoaded then [unloadModuleEv] else []
  let st2 := { st1 with resourceProviderMiModuleLoaded := false }
  { res := if classRes ≠ MI_RESULT_OK then classRes else moduleRes
    state := st2
    trace := classTrace ++ moduleTrace }

/-- Whether an action list contains a `PostResult` (any token). -/
def hasStatusPost (acts : List CallbackAction) : Bool :=
  acts.any fun act =>
    match act with
    | postStatusAct _ _ => true
    | _ => false

/-- Whether an action list contains a `postError` that the slot accepts
for token `t`. -/
def hasAcceptedError (t : Nat) (acts : List CallbackAction) : Bool :=
  acts.any fun act =>
    match act with
    | postErrorAct t2 _ => t2 == t
    | _ => false

/-- State after the two lazy load steps of the operation skeleton. -/
def loadedState (pm : ProviderModule) (st : ProviderState) : ProviderState :=
  (ensureClassLoaded pm (ensureModuleLoaded pm st).state).state

/-- State at the point the provider entry point is invoked: loads done and a
fresh invocation begun. -/
def beganState (pm : ProviderModule) (multi : Bool) (st : ProviderState) : ProviderState :=
  (beginInvocation multi (loadedState pm st)).state

/-- Sample resource instance used by concrete scenarios. -/
def sampleInstance : InstanceData := [("id", "1"), ("state", "present")]

/-- One-instance heap: address 0 holds `sampleInstance`. -/
def heap0 : Heap := { cells := [(0, sampleInstance)], next := 1 }

/-- A provider module that loads cleanly and whose entry points return
success without posting anything. -/
def pmQuiet : ProviderModule :=
  { loadResult := MI_RESULT_OK
    unloadResult := MI_RESULT_OK
    classLoadResult := MI_RESULT_OK
    classUnloadResult := MI_RESULT_OK
    getTargetBehavior := fun _ _ => ([], MI_RESULT_OK)
    testBehavior := fun _ _ => ([], MI_RESULT_OK)
    inventoryBehavior := fun _ _ => ([], MI_RESULT_OK) }

/-- A provider that posts status success but returns failure 5 from the
entry point itself. -/
def pmSubStep : ProviderModule :=
  { pmQuiet with getTargetBehavior := fun t _ => ([postStatusAct t MI_RESULT_OK], 5) }

/-- A provider that posts the same invocation's instance twice. -/
def pmDoublePost : ProviderModule :=
  { pmQuiet with getTargetBehavior :=
      fun t _ => ([postInstanceAct t 0, postInstanceAct t 0], MI_RESULT_OK) }

/-- A provider that posts its instance, then mutates the original. -/
def pmMutator : ProviderModule :=
  { pmQuiet with getTargetBehavior :=
      fun t _ => ([postInstanceAct t 0, mutateAct 0 [("state", "absent")]], MI_RESULT_OK) }

/-- Three-instance heap for the inventory scenario. -/
def heap3 : Heap :=
  { cells := [(0, [("n", "a")]), (1, [("n", "b")]), (2, [("n", "c")])], next := 3 }

/-- A provider whose `GetInventory` posts the three instances 0, 1, 2. -/
def pmEnum : ProviderModule :=
  { pmQuiet with inventoryBehavior :=
      fun t _ => ([postInstanceAct t 0, postInstanceAct t 1, postInstanceAct t 2], MI_RESULT_OK) }

/-- A provider module whose `Load` fails with code 9. -/
def pmBadLoad : ProviderModule := { pmQuiet with loadResult := 9 }

/-- A state with an outstanding invocation holding a captured instance and
a posted status. -/
def stOutstanding : ProviderState :=
  { initialProviderState with
    resourceProviderMiModuleLoaded := true
    resourceProviderClassLoaded := true
    invocationActive := true
    currentToken := 4
    nextToken := 5
    outputResources := [2]
    statusPosted := true
    result := 7 }

/-- A provider that posts an extended-error record and fails. -/
def pmPostsError : ProviderModule :=
  { pmQuiet with getTargetBehavior :=
      fun t _ => ([postErrorAct t [("code", "1")]], 5) }

namespace Heap

theorem get_lt_next {h : Heap} {a : Addr} {d : InstanceData}
    (hwf : h.WF) (hget : h.get a = some d) : a < h.next := by
  unfold get at hget
  cases hfind : h.cells.find? (fun c => c.fst == a) with
  | none => simp [hfind] at hget
  | some p =>
    have hmem := List.mem_of_find?_eq_some hfind
    have heq := @List.find?_some _ (fun c => c.fst == a) p h.cells hfind
    have : p.fst = a := by simpa using heq
    subst this
    exact hwf p hmem

theorem get_alloc_self (h : Heap) (d : InstanceData) :
    (h.alloc d).2.get (h.alloc d).1 = some d := by
  simp [alloc, get]

theorem get_alloc_other (h : Heap) (d : InstanceData) {a : Addr}
    (hne : a ≠ h.next) : (h.alloc d).2.get a = h.get a := by
  simp [alloc, get, List.find?]
  have : (h.next == a) = false := by
    simp [Ne.symm hne]
  simp [this]

theorem get_set_other (h : Heap) (b : Addr) (d : InstanceData) {a : Addr}
    (hne : a ≠ b) : (h.set b d).get a = h.get a := by
  simp [set, get, List.find?]
  have : (b == a) = false := by
    simp [Ne.symm hne]
  simp [this]

theorem wf_alloc {h : Heap} (hwf : h.WF) (d : InstanceData) :
    (h.alloc d).2.WF := by
  intro p hp
  simp [alloc] at hp
  rcases hp with hp | hp
  · simp [hp, alloc]
  · have := hwf p hp
    simp [alloc]
    exact Nat.lt_succ_of_lt this

theorem wf_set {h : Heap} {b : Addr} (hwf : h.WF) (hb : b < h.next)
    (d : InstanceData) : (h.set b d).WF := by
  intro p hp
  simp [set] at hp
  rcases hp with hp | hp
  · simp [hp, set, hb]
  · have := hwf p hp
    simpa [set] using this

theorem next_alloc (h : Heap) (d : InstanceData) :
    (h.alloc d).2.next = h.next + 1 := rfl

theorem get_alloc_next (h : Heap) (d : InstanceData) :
    (h.alloc d).2.get h.next = some d := get_alloc_self h d

end Heap

theorem applyCallback_preserves (st : ProviderState) (h : Heap)
    (act : CallbackAction) :
    (applyCallback st h act).st.invocationActive = st.invocationActive ∧
    (applyCallback st h act).st.currentToken = st.currentToken ∧
    (applyCallback st h act).st.multiPostAllowed = st.multiPostAllowed ∧
    (applyCallback st h act).st.nextToken = st.nextToken ∧
    (applyCallback st h act).st.resourceProviderMiModuleLoaded
      = st.resourceProviderMiModuleLoaded ∧
    (applyCallback st h act).st.resourceProviderClassLoaded
      = st.resourceProviderClassLoaded := by
  cases act <;>
    simp only [applyCallback, postInstance, postStatus, postError, mutateInstance] <;>
    repeat' split <;> simp_all

theorem runCallbacks_preserves (acts : List CallbackAction) :
    ∀ (st : ProviderState) (h : Heap),
    (runCallbacks st h acts).st.invocationActive = st.invocationActive ∧
    (runCallbacks st h acts).st.currentToken = st.currentToken ∧
    (runCallbacks st h acts).st.multiPostAllowed = st.multiPostAllowed ∧
    (runCallbacks st h acts).st.nextToken = st.nextToken ∧
    (runCallbacks st h acts).st.resourceProviderMiModuleLoaded
      = st.resourceProviderMiModuleLoaded ∧
    (runCallbacks st h acts).st.resourceProviderClassLoaded
      = st.resourceProviderClassLoaded := by
  induction acts with
  | nil => intro st h; simp [runCallbacks]
  | cons act rest ih =>
    intro st h
    have h1 := applyCallback_preserves st h act
    have h2 := ih (applyCallback st h act).st (applyCallback st h act).heap
    simp only [runCallbacks]
    exact ⟨h2.1.trans h1.1, h2.2.1.trans h1.2.1, h2.2.2.1.trans h1.2.2.1,
      h2.2.2.2.1.trans h1.2.2.2.1, h2.2.2.2.2.1.trans h1.2.2.2.2.1,
      h2.2.2.2.2.2.trans h1.2.2.2.2.2⟩

theorem applyCallback_result_of_not_status (st : ProviderState) (h : Heap)
    (act : CallbackAction)
    (hns : (match act with | postStatusAct _ _ => true | _ => false) = false) :
    (applyCallback st h act).st.result = st.result ∧
    (applyCallback st h act).st.statusPosted = st.statusPosted := by
  cases act with
  | postInstanceAct t a =>
    simp only [applyCallback, postInstance]
    repeat' split
    all_goals simp
  | postStatusAct t s => exact absurd hns (by simp)
  | postErrorAct t e =>
    simp only [applyCallback, postError]
    split <;> simp
  | mutateAct a d =>
    simp only [applyCallback, mutateInstance]
    split <;> simp

theorem runCallbacks_result_of_no_status (acts : List CallbackAction) :
    ∀ (st : ProviderState) (h : Heap), hasStatusPost acts = false →
    (runCallbacks st h acts).st.result = st.result ∧
    (runCallbacks st h acts).st.statusPosted = st.statusPosted := by
  induction acts with
  | nil => intro st h _; simp [runCallbacks]
  | cons act rest ih =>
    intro st h hns
    simp only [hasStatusPost, List.any_cons, Bool.or_eq_false_iff] at hns
    have h1 := applyCallback_result_of_not_status st h act hns.1
    have h2 := ih (applyCallback st h act).st (applyCallback st h act).heap
      (by simp [hasStatusPost, hns.2])
    simp only [runCallbacks]
    exact ⟨h2.1.trans h1.1, h2.2.trans h1.2⟩

theorem applyCallback_extendedError_of_not_error (st : ProviderState) (h : Heap)
    (act : CallbackAction)
    (hne : (match act with | postErrorAct _ _ => true | _ => false) = false) :
    (applyCallback st h act).st.extendedError = st.extendedError := by
  cases act with
  | postInstanceAct t a =>
    simp only [applyCallback, postInstance]
    repeat' split
    all_goals simp
  | postStatusAct t s =>
    simp only [applyCallback, postStatus]
    split <;> simp
  | postErrorAct t e => exact absurd hne (by simp)
  | mutateAct a d =>
    simp only [applyCallback, mutateInstance]
    split <;> simp

theorem runCallbacks_extendedError (acts : List CallbackAction) :
    ∀ (st : ProviderState) (h : Heap), st.invocationActive = true →
    ((runCallbacks st h acts).st.extendedError = none ↔
      (st.extendedError = none ∧ hasAcceptedError st.currentToken acts = false)) := by
  induction acts with
  | nil => intro st h _; simp [runCallbacks, hasAcceptedError]
  | cons act rest ih =>
    intro st h hact
    simp only [runCallbacks]
    have hpres := applyCallback_preserves st h act
    have hih := ih (applyCallback st h act).st (applyCallback st h act).heap
      (by rw [hpres.1]; exact hact)
    rw [hih, hpres.2.1]
    cases act with
    | postErrorAct t2 e =>
      by_cases ht : t2 = st.currentToken
      · have hcb : (applyCallback st h (postErrorAct t2 e)).st
            = { st with extendedError := some e } := by
          simp [applyCallback, postError, hact, ht]
        rw [hcb]
        simp [hasAcceptedError, ht]
      · have hcb : (applyCallback st h (postErrorAct t2 e)).st = st := by
          simp [applyCallback, postError, ht]
        rw [hcb]
        simp [hasAcceptedError, ht]
    | postInstanceAct t a =>
      rw [applyCallback_extendedError_of_not_error st h _ (by simp)]
      simp [hasAcceptedError]
    | postStatusAct t s =>
      rw [applyCallback_extendedError_of_not_error st h _ (by simp)]
      simp [hasAcceptedError]
    | mutateAct a d =>
      rw [applyCallback_extendedError_of_not_error st h _ (by simp)]
      simp [hasAcceptedError]

theorem ensureModuleLoaded_fields (pm : ProviderModule) (st : ProviderState) :
    (ensureModuleLoaded pm st).state.invocationActive = st.invocationActive ∧
    (ensureModuleLoaded pm st).state.currentToken = st.currentToken ∧
    (ensureModuleLoaded pm st).state.nextToken = st.nextToken ∧
    (ensureModuleLoaded pm st).state.outputResources = st.outputResources ∧
    (ensureModuleLoaded pm st).state.result = st.result ∧
    (ensureModuleLoaded pm st).state.extendedError = st.extendedError ∧
    (ensureModuleLoaded pm st).state.statusPosted = st.statusPosted ∧
    (ensureModuleLoaded pm st).state.multiPostAllowed = st.multiPostAllowed := by
  unfold ensureModuleLoaded
  repeat' split
  all_goals simp

theorem ensureClassLoaded_fields (pm : ProviderModule) (st : ProviderState) :
    (ensureClassLoaded pm st).state.invocationActive = st.invocationActive ∧
    (ensureClassLoaded pm st).state.currentToken = st.currentToken ∧
    (ensureClassLoaded pm st).state.nextToken = st.nextToken ∧
    (ensureClassLoaded pm st).state.outputResources = st.outputResources ∧
    (ensureClassLoaded pm st).state.result = st.result ∧
    (ensureClassLoaded pm st).state.extendedError = st.extendedError ∧
    (ensureClassLoaded pm st).state.statusPosted = st.statusPosted ∧
    (ensureClassLoaded pm st).state.multiPostAllowed = st.multiPostAllowed := by
  unfold ensureClassLoaded
  repeat' split
  all_goals simp

theorem loadedState_invocationActive (pm : ProviderModule) (st : ProviderState) :
    (loadedState pm st).invocationActive = st.invocationActive := by
  unfold loadedState
  rw [(ensureClassLoaded_fields pm _).1, (ensureModuleLoaded_fields pm st).1]

theorem loadedState_nextToken (pm : ProviderModule) (st : ProviderState) :
    (loadedState pm st).nextToken = st.nextToken := by
  unfold loadedState
  rw [(ensureClassLoaded_fields pm _).2.2.1, (ensureModuleLoaded_fields pm st).2.2.1]

theorem beganState_fields (pm : ProviderModule) (multi : Bool)
    (st : ProviderState) (hact : st.invocationActive = false) :
    (beganState pm multi st).invocationActive = true ∧
    (beganState pm multi st).currentToken = st.nextToken ∧
    (beganState pm multi st).outputResources = [] ∧
    (beganState pm multi st).result = MI_RESULT_OK ∧
    (beganState pm multi st).extendedError = none ∧
    (beganState pm multi st).multiPostAllowed = multi ∧
    (beganState pm multi st).statusPosted = false := by
  unfold beganState beginInvocation
  rw [loadedState_invocationActive pm st, hact]
  simp [loadedState_nextToken pm st]

theorem runOperation_normal (pm : ProviderModule)
    (behavior : Nat → Addr → List CallbackAction × Nat) (ev : Event)
    (multi : Bool) (st : ProviderState) (h : Heap) (input : Addr)
    (hm : (ensureModuleLoaded pm st).res = MI_RESULT_OK)
    (hc : (ensureClassLoaded pm (ensureModuleLoaded pm st).state).res = MI_RESULT_OK)
    (hact : st.invocationActive = false) :
    runOperation pm behavior ev multi st h input =
      { status :=
          if (behavior st.nextToken input).2 ≠ MI_RESULT_OK then
            (behavior st.nextToken input).2
          else
            (runCallbacks (beganState pm multi st) h (behavior st.nextToken input).1).st.result
        instances :=
          (runCallbacks (beganState pm multi st) h (behavior st.nextToken input).1).st.outputResources
        extendedError :=
          (runCallbacks (beganState pm multi st) h (behavior st.nextToken input).1).st.extendedError
        state :=
          (endInvocation
            (runCallbacks (beganState pm multi st) h (behavior st.nextToken input).1).st
            st.nextToken).state
        heap := (runCallbacks (beganState pm multi st) h (behavior st.nextToken input).1).heap
        trace := (ensureModuleLoaded pm st).trace ++
          (ensureClassLoaded pm (ensureModuleLoaded pm st).state).trace ++
          ([ev] ++
            (runCallbacks (beganState pm multi st) h (behavior st.nextToken input).1).trace) } := by
  have hLact : (loadedState pm st).invocationActive = false :=
    (loadedState_invocationActive pm st).trans hact
  have hLtok : (loadedState pm st).nextToken = st.nextToken := loadedState_nextToken pm st
  have hbegin : (beginInvocation multi (loadedState pm st)).res = MI_RESULT_OK := by
    unfold beginInvocation
    rw [hLact]
    simp
  have hbtok : (beganState pm multi st).currentToken = st.nextToken :=
    (beganState_fields pm multi st hact).2.1
  have hpres := runCallbacks_preserves (behavior st.nextToken input).1
    (beganState pm multi st) h
  have hbact : (beganState pm multi st).invocationActive = true :=
    (beganState_fields pm multi st hact).1
  have hbtr : (beginInvocation multi (loadedState pm st)).trace = ([] : List Event) := by
    unfold beginInvocation
    split <;> rfl
  have hbview : (beginInvocation multi (ensureClassLoaded pm
      (ensureModuleLoaded pm st).state).state) = beginInvocation multi (loadedState pm st) := rfl
  have hstview : (beginInvocation multi (loadedState pm st)).state = beganState pm multi st := rfl
  simp only [runOperation, hm, hc, hbview, hbegin, hstview, hbtok, hbtr, ne_eq,
    not_true_eq_false, if_false, MI_RESULT_OK]
  have hend : endInvocation
      (runCallbacks (beganState pm multi st) h (behavior st.nextToken input).1).st
      st.nextToken =
      { instances := (runCallbacks (beganState pm multi st) h (behavior st.nextToken input).1).st.outputResources
        status := (runCallbacks (beganState pm multi st) h (behavior st.nextToken input).1).st.result
        extendedError := (runCallbacks (beganState pm multi st) h (behavior st.nextToken input).1).st.extendedError
        state := (endInvocation
          (runCallbacks (beganState pm multi st) h (behavior st.nextToken input).1).st
          st.nextToken).state } := by
    unfold endInvocation
    rw [hpres.1, hbact, hpres.2.1, hbtok]
    simp [endInvocation]
  rw [hend]
  simp [beginInvocation, hLact]

theorem runOperation_loadFail (pm : ProviderModule)
    (behavior : Nat → Addr → List CallbackAction × Nat) (ev : Event)
    (multi : Bool) (st : ProviderState) (h : Heap) (input : Addr)
    (hflag : st.resourceProviderMiModuleLoaded = false)
    (hfail : pm.loadResult ≠ MI_RESULT_OK) :
    runOperation pm behavior ev multi st h input =
      { status := pm.loadResult, instances := [], extendedError := none
        state := st, heap := h, trace := [loadModuleEv] } := by
  simp only [runOperation, ensureModuleLoaded, hflag, hfail, Bool.false_eq_true,
    if_false, ne_eq, not_false_eq_true, if_true, ite_false, ite_true]

theorem hasStatusPost_posts (t : Nat) (addrs : List Addr) :
    hasStatusPost (addrs.map (fun a => postInstanceAct t a)) = false := by
  simp [hasStatusPost, List.any_map, Function.comp]

theorem hasAcceptedError_posts (t t2 : Nat) (addrs : List Addr) :
    hasAcceptedError t2 (addrs.map (fun a => postInstanceAct t a)) = false := by
  simp [hasAcceptedError, List.any_map, Function.comp]

theorem runCallbacks_posts (t : Nat) :
    ∀ (addrs : List Addr) (st : ProviderState) (h : Heap),
    st.invocationActive = true → st.currentToken = t →
    st.multiPostAllowed = true → h.WF →
    (∀ a ∈ addrs, (h.get a).isSome) →
    (∀ c ∈ st.outputResources, c < h.next) →
    ((runCallbacks st h (addrs.map (fun a => postInstanceAct t a))).st.outputResources.map
        (fun c => (runCallbacks st h (addrs.map (fun a => postInstanceAct t a))).heap.get c)
      = st.outputResources.map (fun c => h.get c) ++ addrs.map (fun a => h.get a)) ∧
    (runCallbacks st h (addrs.map (fun a => postInstanceAct t a))).heap.WF ∧
    h.next ≤ (runCallbacks st h (addrs.map (fun a => postInstanceAct t a))).heap.next ∧
    (∀ x < h.next,
      (runCallbacks st h (addrs.map (fun a => postInstanceAct t a))).heap.get x = h.get x) ∧
    (∀ c ∈ (runCallbacks st h (addrs.map (fun a => postInstanceAct t a))).st.outputResources,
      c < (runCallbacks st h (addrs.map (fun a => postInstanceAct t a))).heap.next) := by
  intro addrs
  induction addrs with
  | nil =>
    intro st h _ _ _ hwf _ hout
    exact ⟨by simp [runCallbacks], hwf, le_refl _, fun x _ => rfl, hout⟩
  | cons a rest ih =>
    intro st h hact htok hmulti hwf hvalid hout
    obtain ⟨d, hd⟩ := Option.isSome_iff_exists.mp (hvalid a (by simp))
    have halt : a < h.next := Heap.get_lt_next hwf hd
    have hstep : applyCallback st h (postInstanceAct t a) =
        { st := { st with outputResources := st.outputResources ++ [h.next] }
          heap := (h.alloc d).2
          trace := [] } := by
      simp [applyCallback, postInstance, hact, htok, hmulti, hd, Heap.alloc]
    have hih := ih { st with outputResources := st.outputResources ++ [h.next] }
      (h.alloc d).2
      (by simpa using hact) (by simpa using htok) (by simpa using hmulti)
      (Heap.wf_alloc hwf d)
      (by
        intro a2 ha2
        have hv := hvalid a2 (by simp [ha2])
        obtain ⟨d2, hd2⟩ := Option.isSome_iff_exists.mp hv
        have : a2 < h.next := Heap.get_lt_next hwf hd2
        rw [Heap.get_alloc_other h d (Nat.ne_of_lt this)]
        exact hv)
      (by
        intro c hc
        simp only [List.mem_append, List.mem_singleton] at hc
        rw [Heap.next_alloc]
        rcases hc with hc | hc
        · exact Nat.lt_succ_of_lt (hout c hc)
        · simp [hc])
    simp only [List.map_cons, runCallbacks, hstep]
    set h2 := (runCallbacks { st with outputResources := st.outputResources ++ [h.next] }
      (h.alloc d).2 (rest.map (fun a => postInstanceAct t a))).heap with hh2
    set st2 := (runCallbacks { st with outputResources := st.outputResources ++ [h.next] }
      (h.alloc d).2 (rest.map (fun a => postInstanceAct t a))).st with hst2
    obtain ⟨hmap, hwf2, hle2, hext2, hbound2⟩ := hih
    have hexth : ∀ x < h.next, h2.get x = h.get x := by
      intro x hx
      have hx2 : x < (h.alloc d).2.next := by
        rw [Heap.next_alloc]
        exact Nat.lt_succ_of_lt hx
      rw [hext2 x hx2, Heap.get_alloc_other h d (Nat.ne_of_lt hx)]
    refine ⟨?_, hwf2, ?_, hexth, hbound2⟩
    · rw [hmap]
      have h1 : ({ st with outputResources := st.outputResources ++ [h.next] }
          : ProviderState).outputResources.map (fun c => (h.alloc d).2.get c)
          = st.outputResources.map (fun c => h.get c) ++ [some d] := by
        simp only [List.map_append, List.map_cons, List.map_nil]
        congr 1
        · apply List.map_congr_left
          intro c hc
          exact Heap.get_alloc_other h d (Nat.ne_of_lt (hout c hc))
        · simp [Heap.get_alloc_next h d]
      have h3 : rest.map (fun a2 => (h.alloc d).2.get a2)
          = rest.map (fun a2 => h.get a2) := by
        apply List.map_congr_left
        intro a2 ha2
        obtain ⟨d2, hd2⟩ := Option.isSome_iff_exists.mp (hvalid a2 (by simp [ha2]))
        exact Heap.get_alloc_other h d (Nat.ne_of_lt (Heap.get_lt_next hwf hd2))
      rw [h1, h3]
      simp [hd]
    · calc h.next ≤ (h.alloc d).2.next := by
            rw [Heap.next_alloc]; exact Nat.le_succ _
        _ ≤ h2.next := hle2

/-- C1 counterexample: a provider whose `GetTargetResource` returns success
and never calls `PostResult`.  The operation's captured status is
`MI_RESULT_OK` itself — the header-documented default of the `result` field
— not a sentinel distinct from the success code, refuting the claim that
`endInvocation` yields a `NoResultReported` value different from the
success code. -/
theorem noResultReported_sentinel_counterexample :
    (NativeResourceProvider_GetTargetResource pmQuiet initialProviderState heap0 0).status
      = MI_RESULT_OK := by
  decide

/-- C1 (amended): when the provider entry point returns success and never
posts a status, the operation's status is the header-documented default
`MI_RESULT_OK` — the success code — so a provider that returns without
reporting is indistinguishable from one that posted success; there is no
distinct NoResultReported sentinel. -/
theorem noStatusPosted_yields_default_ok (pm : ProviderModule)
    (behavior : Nat → Addr → List CallbackAction × Nat) (ev : Event)
    (multi : Bool) (st : ProviderState) (h : Heap) (input : Addr)
    (hm : (ensureModuleLoaded pm st).res = MI_RESULT_OK)
    (hc : (ensureClassLoaded pm (ensureModuleLoaded pm st).state).res = MI_RESULT_OK)
    (hact : st.invocationActive = false)
    (hns : hasStatusPost (behavior st.nextToken input).1 = false)
    (hret : (behavior st.nextToken input).2 = MI_RESULT_OK) :
    (runOperation pm behavior ev multi st h input).status = MI_RESULT_OK := by
  rw [runOperation_normal pm behavior ev multi st h input hm hc hact]
  simp only [hret, ne_eq, not_true_eq_false, if_false]
  have hres := (runCallbacks_result_of_no_status (behavior st.nextToken input).1
    (beganState pm multi st) h hns).1
  rw [hres, (beganState_fields pm multi st hact).2.2.2.1]

/-- Closed witness for the amended C1 theorem at a concrete provider. -/
theorem noStatusPosted_yields_default_ok_witness :
    (runOperation pmQuiet pmQuiet.getTargetBehavior Event.invokeGetTargetEv false
      initialProviderState heap0 0).status = MI_RESULT_OK :=
  noStatusPosted_yields_default_ok pmQuiet pmQuiet.getTargetBehavior
    Event.invokeGetTargetEv false initialProviderState heap0 0
    (by decide) (by decide) (by decide) (by decide) (by decide)

/-- C2: for every synchronous operation, a failure status returned by the
provider entry point itself takes precedence: the operation's result is the
entry point's failure code, regardless of what the provider posted via
`PostResult` during the invocation (even a posted success). -/
theorem entryPointFailure_takes_precedence (pm : ProviderModule)
    (behavior : Nat → Addr → List CallbackAction × Nat) (ev : Event)
    (multi : Bool) (st : ProviderState) (h : Heap) (input : Addr)
    (hm : (ensureModuleLoaded pm st).res = MI_RESULT_OK)
    (hc : (ensureClassLoaded pm (ensureModuleLoaded pm st).state).res = MI_RESULT_OK)
    (hact : st.invocationActive = false)
    (hret : (behavior st.nextToken input).2 ≠ MI_RESULT_OK) :
    (runOperation pm behavior ev multi st h input).status
      = (behavior st.nextToken input).2 := by
  rw [runOperation_normal pm behavior ev multi st h input hm hc hact]
  simp only [ne_eq, hret, not_false_eq_true, if_true, ite_true]

/-- Closed witness for C2: the operation's result is the entry point's
failure 5 even though the provider posted success. -/
theorem entryPointFailure_takes_precedence_witness :
    (runOperation pmSubStep pmSubStep.getTargetBehavior Event.invokeGetTargetEv false
      initialProviderState heap0 0).status = 5 :=
  entryPointFailure_takes_precedence pmSubStep pmSubStep.getTargetBehavior
    Event.invokeGetTargetEv false initialProviderState heap0 0
    (by decide) (by decide) (by decide) (by decide)

/-- C3: in a non-enumeration operation, a second `PostInstance` with the
current token is rejected: it is reported as a protocol violation, the
first captured clone is returned unchanged by the drained slot, and the
operation is not aborted (it completes with its normal success status). -/
theorem duplicatePostInstance_rejected (pm : ProviderModule)
    (behavior : Nat → Addr → List CallbackAction × Nat) (ev : Event)
    (st : ProviderState) (h : Heap) (input : Addr) (a b : Addr)
    (da db : InstanceData)
    (hm : (ensureModuleLoaded pm st).res = MI_RESULT_OK)
    (hc : (ensureClassLoaded pm (ensureModuleLoaded pm st).state).res = MI_RESULT_OK)
    (hact : st.invocationActive = false)
    (hda : h.get a = some da) (_hdb : h.get b = some db)
    (hbeh : behavior st.nextToken input
      = ([postInstanceAct st.nextToken a, postInstanceAct st.nextToken b], MI_RESULT_OK)) :
    ((runOperation pm behavior ev false st h input).instances.map
        (fun c => (runOperation pm behavior ev false st h input).heap.get c)
      = [some da]) ∧
    protocolViolationEv ∈ (runOperation pm behavior ev false st h input).trace ∧
    (runOperation pm behavior ev false st h input).status = MI_RESULT_OK := by
  have hB := beganState_fields pm false st hact
  have hstep1 : applyCallback (beganState pm false st) h (postInstanceAct st.nextToken a)
      = { st := { beganState pm false st with outputResources := [h.next] }
          heap := (h.alloc da).2, trace := [] } := by
    simp [applyCallback, postInstance, hB.1, hB.2.1, hB.2.2.1, hda, Heap.alloc]
  have hstep2 : applyCallback
      { beganState pm false st with outputResources := [h.next] }
      (h.alloc da).2 (postInstanceAct st.nextToken b)
      = { st := { beganState pm false st with outputResources := [h.next] }
          heap := (h.alloc da).2, trace := [protocolViolationEv] } := by
    simp [applyCallback, postInstance, hB.1, hB.2.1, hB.2.2.2.2.2.1]
  have hrun : runCallbacks (beganState pm false st) h
      [postInstanceAct st.nextToken a, postInstanceAct st.nextToken b]
      = { st := { beganState pm false st with outputResources := [h.next] }
          heap := (h.alloc da).2, trace := [protocolViolationEv] } := by
    simp [runCallbacks, hstep1, hstep2]
  rw [runOperation_normal pm behavior ev false st h input hm hc hact]
  simp only [hbeh, hrun, ne_eq, not_true_eq_false, if_false, List.map_cons,
    List.map_nil, List.mem_cons, List.mem_singleton, List.mem_append]
  refine ⟨?_, ?_, ?_⟩
  · simp [Heap.get_alloc_next]
  · simp
  · simp [hB.2.2.2.1]

/-- Closed witness for C3 at a concrete provider and heap. -/
theorem duplicatePostInstance_rejected_witness :
    ((runOperation pmDoublePost pmDoublePost.getTargetBehavior Event.invokeGetTargetEv false
        initialProviderState heap0 0).instances.map
        (fun c => (runOperation pmDoublePost pmDoublePost.getTargetBehavior
          Event.invokeGetTargetEv false initialProviderState heap0 0).heap.get c)
      = [some sampleInstance]) ∧
    protocolViolationEv ∈ (runOperation pmDoublePost pmDoublePost.getTargetBehavior
      Event.invokeGetTargetEv false initialProviderState heap0 0).trace ∧
    (runOperation pmDoublePost pmDoublePost.getTargetBehavior Event.invokeGetTargetEv false
      initialProviderState heap0 0).status = MI_RESULT_OK :=
  duplicatePostInstance_rejected pmDoublePost pmDoublePost.getTargetBehavior
    Event.invokeGetTargetEv initialProviderState heap0 0 0 0
    sampleInstance sampleInstance
    (by decide) (by decide) (by decide) (by decide) (by decide) (by decide)

/-- C4: the captured instance is a deep copy.  After an accepted
`PostInstance` of the instance at address `a`, a provider-side mutation of
that original instance changes the original (second conjunct) but leaves
the captured clone — the instance the drained slot returns — holding the
originally posted data (first conjunct). -/
theorem postedInstance_cloneIndependent (pm : ProviderModule)
    (behavior : Nat → Addr → List CallbackAction × Nat) (ev : Event)
    (st : ProviderState) (h : Heap) (input : Addr) (a : Addr)
    (da d2 : InstanceData)
    (hm : (ensureModuleLoaded pm st).res = MI_RESULT_OK)
    (hc : (ensureClassLoaded pm (ensureModuleLoaded pm st).state).res = MI_RESULT_OK)
    (hact : st.invocationActive = false)
    (hwf : h.WF) (hda : h.get a = some da)
    (hbeh : behavior st.nextToken input
      = ([postInstanceAct st.nextToken a, mutateAct a d2], MI_RESULT_OK)) :
    ((runOperation pm behavior ev false st h input).instances.map
        (fun c => (runOperation pm behavior ev false st h input).heap.get c)
      = [some da]) ∧
    (runOperation pm behavior ev false st h input).heap.get a = some d2 := by
  have hB := beganState_fields pm false st hact
  have halt : a < h.next := Heap.get_lt_next hwf hda
  have hane : a ≠ h.next := Nat.ne_of_lt halt
  have hstep1 : applyCallback (beganState pm false st) h (postInstanceAct st.nextToken a)
      = { st := { beganState pm false st with outputResources := [h.next] }
          heap := (h.alloc da).2, trace := [] } := by
    simp [applyCallback, postInstance, hB.1, hB.2.1, hB.2.2.1, hda, Heap.alloc]
  have hget1 : (h.alloc da).2.get a = some da := by
    rw [Heap.get_alloc_other h da hane]
    exact hda
  have hstep2 : applyCallback
      { beganState pm false st with outputResources := [h.next] }
      (h.alloc da).2 (mutateAct a d2)
      = { st := { beganState pm false st with outputResources := [h.next] }
          heap := (h.alloc da).2.set a d2, trace := [] } := by
    simp [applyCallback, mutateInstance, hget1]
  have hrun : runCallbacks (beganState pm false st) h
      [postInstanceAct st.nextToken a, mutateAct a d2]
      = { st := { beganState pm false st with outputResources := [h.next] }
          heap := (h.alloc da).2.set a d2, trace := [] } := by
    simp [runCallbacks, hstep1, hstep2]
  rw [runOperation_normal pm behavior ev false st h input hm hc hact]
  simp only [hbeh, hrun, List.map_cons, List.map_nil]
  constructor
  · rw [Heap.get_set_other (h.alloc da).2 a d2 (Ne.symm hane)]
    simp [Heap.get_alloc_next]
  · simp [Heap.set, Heap.get]

/-- Closed witness for C4: the provider's original now reads
`state = absent`, while the captured clone still reads the posted data. -/
theorem postedInstance_cloneIndependent_witness :
    ((runOperation pmMutator pmMutator.getTargetBehavior Event.invokeGetTargetEv false
        initialProviderState heap0 0).instances.map
        (fun c => (runOperation pmMutator pmMutator.getTargetBehavior
          Event.invokeGetTargetEv false initialProviderState heap0 0).heap.get c)
      = [some sampleInstance]) ∧
    (runOperation pmMutator pmMutator.getTargetBehavior Event.invokeGetTargetEv false
      initialProviderState heap0 0).heap.get 0 = some [("state", "absent")] :=
  postedInstance_cloneIndependent pmMutator pmMutator.getTargetBehavior
    Event.invokeGetTargetEv initialProviderState heap0 0 0
    sampleInstance [("state", "absent")]
    (by decide) (by decide) (by decide)
    (by unfold Heap.WF; decide) (by decide) (by decide)

/-- C5: for an enumerate-instances invocation in which the provider posts
the instances at `addrs` in order, `NativeResourceProvider_GetInventory`
returns exactly that many captured clones, whose data read in the final
heap is the posted instances' data in post order — none dropped, none
duplicated, none reordered — and the operation succeeds.  Only this
operation runs the slot in multi-post mode. -/
theorem getInventory_returns_posts_in_order (pm : ProviderModule)
    (st : ProviderState) (h : Heap) (input : Addr) (addrs : List Addr)
    (hm : (ensureModuleLoaded pm st).res = MI_RESULT_OK)
    (hc : (ensureClassLoaded pm (ensureModuleLoaded pm st).state).res = MI_RESULT_OK)
    (hact : st.invocationActive = false)
    (hwf : h.WF)
    (hvalid : ∀ a ∈ addrs, (h.get a).isSome)
    (hbeh : pm.inventoryBehavior st.nextToken input
      = (addrs.map (fun a => postInstanceAct st.nextToken a), MI_RESULT_OK)) :
    ((NativeResourceProvider_GetInventory pm st h input).instances.map
        (fun c => (NativeResourceProvider_GetInventory pm st h input).heap.get c)
      = addrs.map (fun a => h.get a)) ∧
    (NativeResourceProvider_GetInventory pm st h input).instances.length
      = addrs.length ∧
    (NativeResourceProvider_GetInventory pm st h input).status = MI_RESULT_OK := by
  have hB := beganState_fields pm true st hact
  have hposts := runCallbacks_posts st.nextToken addrs (beganState pm true st) h
    hB.1 hB.2.1 hB.2.2.2.2.2.1 hwf hvalid
    (by rw [hB.2.2.1]; intro c hc2; simp at hc2)
  have hmap := hposts.1
  rw [hB.2.2.1] at hmap
  simp only [List.map_nil, List.nil_append] at hmap
  have hstat := (runCallbacks_result_of_no_status
    (addrs.map (fun a => postInstanceAct st.nextToken a))
    (beganState pm true st) h (hasStatusPost_posts st.nextToken addrs)).1
  show ((runOperation pm pm.inventoryBehavior invokeInventoryEv true st h input).instances.map
        (fun c => (runOperation pm pm.inventoryBehavior invokeInventoryEv true st h input).heap.get c)
      = addrs.map (fun a => h.get a)) ∧
    (runOperation pm pm.inventoryBehavior invokeInventoryEv true st h input).instances.length
      = addrs.length ∧
    (runOperation pm pm.inventoryBehavior invokeInventoryEv true st h input).status = MI_RESULT_OK
  rw [runOperation_normal pm pm.inventoryBehavior invokeInventoryEv true st h input hm hc hact]
  simp only [hbeh, ne_eq, not_true_eq_false, if_false]
  refine ⟨hmap, ?_, ?_⟩
  · have := congrArg List.length hmap
    simpa using this
  · rw [hstat, hB.2.2.2.1]

/-- Closed witness for C5: three posts come back in post order. -/
theorem getInventory_returns_posts_in_order_witness :
    ((NativeResourceProvider_GetInventory pmEnum initialProviderState heap3 0).instances.map
        (fun c => (NativeResourceProvider_GetInventory pmEnum initialProviderState heap3 0).heap.get c)
      = [0, 1, 2].map (fun a => heap3.get a)) ∧
    (NativeResourceProvider_GetInventory pmEnum initialProviderState heap3 0).instances.length
      = ([0, 1, 2] : List Addr).length ∧
    (NativeResourceProvider_GetInventory pmEnum initialProviderState heap3 0).status
      = MI_RESULT_OK :=
  getInventory_returns_posts_in_order pmEnum initialProviderState heap3 0 [0, 1, 2]
    (by decide) (by decide) (by decide)
    (by unfold Heap.WF; decide) (by decide) (by decide)

/-- C6: `ensureModuleLoaded` and `ensureClassLoaded` are idempotent.  After
either returns success, calling it again returns success, leaves the state
unchanged, and performs no load event — the provider's load entry point is
never invoked a second time. -/
theorem ensureLoads_idempotent (pm : ProviderModule) (st : ProviderState) :
    ((ensureModuleLoaded pm st).res = MI_RESULT_OK →
      ensureModuleLoaded pm (ensureModuleLoaded pm st).state
        = { res := MI_RESULT_OK, state := (ensureModuleLoaded pm st).state
            trace := [] }) ∧
    ((ensureClassLoaded pm st).res = MI_RESULT_OK →
      ensureClassLoaded pm (ensureClassLoaded pm st).state
        = { res := MI_RESULT_OK, state := (ensureClassLoaded pm st).state
            trace := [] }) := by
  constructor
  · intro hres
    by_cases hflag : st.resourceProviderMiModuleLoaded
    · simp [ensureModuleLoaded, hflag]
    · by_cases hload : pm.loadResult = MI_RESULT_OK
      · simp [ensureModuleLoaded, hflag, hload]
      · exfalso
        simp [ensureModuleLoaded, hflag, hload] at hres
  · intro hres
    by_cases hflag : st.resourceProviderClassLoaded
    · simp [ensureClassLoaded, hflag]
    · by_cases hload : pm.classLoadResult = MI_RESULT_OK
      · simp [ensureClassLoaded, hflag, hload]
      · exfalso
        simp [ensureClassLoaded, hflag, hload] at hres

/-- Closed witness for C6 at a concrete module from the fresh state. -/
theorem ensureLoads_idempotent_witness :
    (ensureModuleLoaded pmQuiet (ensureModuleLoaded pmQuiet initialProviderState).state
      = { res := MI_RESULT_OK
          state := (ensureModuleLoaded pmQuiet initialProviderState).state
          trace := [] }) ∧
    (ensureClassLoaded pmQuiet (ensureClassLoaded pmQuiet initialProviderState).state
      = { res := MI_RESULT_OK
          state := (ensureClassLoaded pmQuiet initialProviderState).state
          trace := [] }) :=
  ⟨(ensureLoads_idempotent pmQuiet initialProviderState).1 (by decide),
   (ensureLoads_idempotent pmQuiet initialProviderState).2 (by decide)⟩

/-- C7: while the module-loaded flag is false and the module's `Load` fails,
every synchronous operation surfaces the load error unchanged, leaves the
binding state unchanged, and never invokes the provider entry point (no
invoke event appears in the trace). -/
theorem loadFailure_blocks_entryPoints (pm : ProviderModule)
    (st : ProviderState) (h : Heap) (input : Addr)
    (hflag : st.resourceProviderMiModuleLoaded = false)
    (hfail : pm.loadResult ≠ MI_RESULT_OK) :
    ((NativeResourceProvider_GetTargetResource pm st h input).status = pm.loadResult ∧
      (NativeResourceProvider_GetTargetResource pm st h input).state = st ∧
      invokeGetTargetEv ∉ (NativeResourceProvider_GetTargetResource pm st h input).trace) ∧
    ((NativeResourceProvider_TestTargetResource pm st h input).status = pm.loadResult ∧
      (NativeResourceProvider_TestTargetResource pm st h input).state = st ∧
      invokeTestEv ∉ (NativeResourceProvider_TestTargetResource pm st h input).trace) ∧
    ((NativeResourceProvider_GetInventory pm st h input).status = pm.loadResult ∧
      (NativeResourceProvider_GetInventory pm st h input).state = st ∧
      invokeInventoryEv ∉ (NativeResourceProvider_GetInventory pm st h input).trace) := by
  have h1 := runOperation_loadFail pm pm.getTargetBehavior invokeGetTargetEv false
    st h input hflag hfail
  have h2 := runOperation_loadFail pm pm.testBehavior invokeTestEv false
    st h input hflag hfail
  have h3 := runOperation_loadFail pm pm.inventoryBehavior invokeInventoryEv true
    st h input hflag hfail
  refine ⟨⟨?_, ?_, ?_⟩, ⟨?_, ?_, ?_⟩, ⟨?_, ?_, ?_⟩⟩ <;>
    simp [NativeResourceProvider_GetTargetResource,
      NativeResourceProvider_TestTargetResource,
      NativeResourceProvider_GetInventory, h1, h2, h3]

/-- Closed witness for C7 at a concrete failing module. -/
theorem loadFailure_blocks_entryPoints_witness :
    ((NativeResourceProvider_GetTargetResource pmBadLoad initialProviderState heap0 0).status = pmBadLoad.loadResult ∧
      (NativeResourceProvider_GetTargetResource pmBadLoad initialProviderState heap0 0).state = initialProviderState ∧
      invokeGetTargetEv ∉ (NativeResourceProvider_GetTargetResource pmBadLoad initialProviderState heap0 0).trace) ∧
    ((NativeResourceProvider_TestTargetResource pmBadLoad initialProviderState heap0 0).status = pmBadLoad.loadResult ∧
      (NativeResourceProvider_TestTargetResource pmBadLoad initialProviderState heap0 0).state = initialProviderState ∧
      invokeTestEv ∉ (NativeResourceProvider_TestTargetResource pmBadLoad initialProviderState heap0 0).trace) ∧
    ((NativeResourceProvider_GetInventory pmBadLoad initialProviderState heap0 0).status = pmBadLoad.loadResult ∧
      (NativeResourceProvider_GetInventory pmBadLoad initialProviderState heap0 0).state = initialProviderState ∧
      invokeInventoryEv ∉ (NativeResourceProvider_GetInventory pmBadLoad initialProviderState heap0 0).trace) :=
  loadFailure_blocks_entryPoints pmBadLoad initialProviderState heap0 0
    (by decide) (by decide)

/-- C8: `beginInvocation` fails fast when an invocation token is already
outstanding: it returns a failure (never the success code) and leaves the
whole state — token, captured instances, captured status — unchanged. -/
theorem beginInvocation_failsFast_whenOutstanding (multi : Bool)
    (st : ProviderState) (hact : st.invocationActive = true) :
    (beginInvocation multi st).res = MI_RESULT_FAILED ∧
    (beginInvocation multi st).res ≠ MI_RESULT_OK ∧
    (beginInvocation multi st).state = st := by
  simp [beginInvocation, hact, MI_RESULT_FAILED, MI_RESULT_OK]

/-- Closed witness for C8: the outstanding invocation's captured state
survives the rejected second `beginInvocation`. -/
theorem beginInvocation_failsFast_whenOutstanding_witness :
    (beginInvocation false stOutstanding).res = MI_RESULT_FAILED ∧
    (beginInvocation false stOutstanding).res ≠ MI_RESULT_OK ∧
    (beginInvocation false stOutstanding).state = stOutstanding :=
  beginInvocation_failsFast_whenOutstanding false stOutstanding (by decide)

/-- C9: teardown produces the class-unload attempt first and then the
module-unload attempt, each present exactly when its loaded flag is set and
both present even when the class unload fails; the returned code is the
first error encountered, or success when both unload cleanly or neither
was loaded; both flags end clear. -/
theorem teardown_unload_order_firstError (pm : ProviderModule)
    (st : ProviderState) :
    (NativeResourceProvider_Delete pm st).trace
      = (if st.resourceProviderClassLoaded then [unloadClassEv] else [])
        ++ (if st.resourceProviderMiModuleLoaded then [unloadModuleEv] else []) ∧
    (NativeResourceProvider_Delete pm st).res
      = (if st.resourceProviderClassLoaded ∧ pm.classUnloadResult ≠ MI_RESULT_OK
          then pm.classUnloadResult
          else if st.resourceProviderMiModuleLoaded ∧ pm.unloadResult ≠ MI_RESULT_OK
          then pm.unloadResult
          else MI_RESULT_OK) ∧
    (NativeResourceProvider_Delete pm st).state.resourceProviderClassLoaded = false ∧
    (NativeResourceProvider_Delete pm st).state.resourceProviderMiModuleLoaded = false := by
  unfold NativeResourceProvider_Delete
  by_cases h1 : st.resourceProviderClassLoaded <;>
    by_cases h2 : st.resourceProviderMiModuleLoaded <;>
    by_cases h3 : pm.classUnloadResult = MI_RESULT_OK <;>
    by_cases h4 : pm.unloadResult = MI_RESULT_OK <;>
    simp [h1, h2, h3, h4]

/-- C10: the extended-error output of every synchronous operation is always
a definite value.  On the normal path it is `none` exactly when the
provider posted no extended-error instance during the invocation (first
conjunct, an iff); on the early load-failure path, where no invocation
happens and nothing can be posted, it is `none` as well (second
conjunct) — so callers may rely on it even on the success path. -/
theorem extendedError_none_iff_notPosted (pm : ProviderModule)
    (behavior : Nat → Addr → List CallbackAction × Nat) (ev : Event)
    (multi : Bool) (st : ProviderState) (h : Heap) (input : Addr) :
    (((ensureModuleLoaded pm st).res = MI_RESULT_OK →
      (ensureClassLoaded pm (ensureModuleLoaded pm st).state).res = MI_RESULT_OK →
      st.invocationActive = false →
      ((runOperation pm behavior ev multi st h input).extendedError = none ↔
        hasAcceptedError st.nextToken (behavior st.nextToken input).1 = false))) ∧
    (st.resourceProviderMiModuleLoaded = false → pm.loadResult ≠ MI_RESULT_OK →
      (runOperation pm behavior ev multi st h input).extendedError = none) := by
  constructor
  · intro hm hc hact
    have hB := beganState_fields pm multi st hact
    rw [runOperation_normal pm behavior ev multi st h input hm hc hact]
    have hiff := runCallbacks_extendedError (behavior st.nextToken input).1
      (beganState pm multi st) h hB.1
    rw [hB.2.1, hB.2.2.2.2.1] at hiff
    simpa using hiff
  · intro hflag hfail
    rw [runOperation_loadFail pm behavior ev multi st h input hflag hfail]

/-- Closed witness for C10, applying both conjuncts: the normal-path iff at
a provider that posts an extended error (so the output is non-null), and
the load-failure conjunct at a module that fails to load. -/
theorem extendedError_none_iff_notPosted_witness :
    ((runOperation pmPostsError pmPostsError.getTargetBehavior Event.invokeGetTargetEv false
        initialProviderState heap0 0).extendedError = none ↔
      hasAcceptedError 0 (pmPostsError.getTargetBehavior 0 0).1 = false) ∧
    (runOperation pmBadLoad pmBadLoad.getTargetBehavior Event.invokeGetTargetEv false
      initialProviderState heap0 0).extendedError = none :=
  ⟨(extendedError_none_iff_notPosted pmPostsError pmPostsError.getTargetBehavior
      Event.invokeGetTargetEv false initialProviderState heap0 0).1
      (by decide) (by decide) (by decide),
   (extendedError_none_iff_notPosted pmBadLoad pmBadLoad.getTargetBehavior
      Event.invokeGetTargetEv false initialProviderState heap0 0).2
      (by decide) (by decide)⟩
